import Mathlib

/-!
# rest-api: the request-handling path of `main.go`

A shallow embedding of the server in `src/main.go`: the authorization gate
`AuthMiddleware`, the two handlers `handleDataRequest` and
`handleDataByIDRequest`, the loader `readAllJSONData`, and the two patterns
`main` registers on the default mux.

The Go standard library is not part of the repository.  What the handlers
call from it is modelled here after its documented behaviour
(`strconv.Atoi`, `http.Error`, `Header.Get`, `Header.Set`, the response
writer, `json.Encoder.Encode`, the dispatch of `http.ServeMux`), or taken
as a parameter where the behaviour depends on the outside world
(`ioutil.ReadFile`, `json.Unmarshal`, the width of `int`): see `Env`.
-/

set_option autoImplicit false

namespace RestApi

/-! ## Strings -/

/-- A byte; arithmetic on it wraps modulo 256, as on Go's `byte`. -/
abbrev Byte := Fin 256

/-- A Go string the client controls (path, header value): any sequence of bytes. -/
abbrev GoString := List Byte

/-- The UTF-8 bytes of one character. -/
def utf8 (c : Char) : List Byte := (String.utf8EncodeChar c).map (fun b => b.val)

/-- The bytes of a string literal of the source. -/
def str (s : String) : GoString := s.data.flatMap utf8

/-- Go's `s[i:]`: `none` stands for the run-time panic "slice bounds out of range". -/
def sliceFrom (s : GoString) (i : Nat) : Option GoString :=
  if i ≤ s.length then some (s.drop i) else none

/-! ## Machine integers -/

/-- The platforms Go's `int` distinguishes. -/
inductive Platform where
  | bits32
  | bits64
deriving DecidableEq, Repr

/-- Go's `strconv.IntSize`, the width of `int`. -/
def Platform.intSize : Platform → Nat
  | .bits32 => 32
  | .bits64 => 64

/-- Two's-complement wrap-around of a signed integer of `bits` bits. -/
def wrapInt (bits : Nat) (x : Int) : Int :=
  (x + 2 ^ (bits - 1)) % 2 ^ bits - 2 ^ (bits - 1)

/-- Wrap-around of a `uint64`. -/
def wrapU64 (x : Nat) : Nat := x % 2 ^ 64

/-! ## strconv.Atoi -/

/-- The `Err` field of `strconv.NumError`. -/
inductive NumError where
  | ErrSyntax
  | ErrRange
deriving DecidableEq, Repr

/-- Go's `lower(c)`, `c | ('x' - 'X')`. -/
def lower (c : Byte) : Byte := c ||| 32

/-- The `switch` of the digit loop of `strconv.ParseUint` for base 10, where the case
`c == '_' && base0` cannot fire: the digit value of a byte, `none` for its `default`. -/
def digitValue (c : Byte) : Option Byte :=
  if 48 ≤ c ∧ c ≤ 57 then some (c - 48)
  else if 97 ≤ lower c ∧ lower c ≤ 122 then some (lower c - 97 + 10)
  else none

/-- Go's `maxVal := uint64(1)<<uint(bitSize) - 1` in `strconv.ParseUint`. -/
def maxVal (bitSize : Nat) : Nat := wrapU64 (wrapU64 (1 <<< bitSize) + 2 ^ 64 - 1)

/-- The digit loop of `strconv.ParseUint(s, 10, bitSize)`, with the running value `n`.
It returns Go's pair `(uint64, error)`. -/
def parseUintLoop (bitSize : Nat) : Nat → List Byte → Nat × Option NumError
  | n, [] => (n, none)
  | n, c :: rest =>
    let cutoff : Nat := (2 ^ 64 - 1) / 10 + 1
    match digitValue c with
    | none => (0, some .ErrSyntax)
    | some d =>
      if d ≥ 10 then (0, some .ErrSyntax)
      else if n ≥ cutoff then (maxVal bitSize, some .ErrRange)
      else
        let n := wrapU64 (n * 10)
        let n1 := wrapU64 (n + d.val)
        if n1 < n ∨ n1 > maxVal bitSize then (maxVal bitSize, some .ErrRange)
        else parseUintLoop bitSize n1 rest

/-- Go's `strconv.ParseUint(s, 10, 0)`. -/
def ParseUint (p : Platform) (s : GoString) : Nat × Option NumError :=
  if s = [] then (0, some .ErrSyntax)
  else parseUintLoop p.intSize 0 s

/-- Go's `strconv.ParseInt(s, 10, 0)`, returning Go's pair `(int64, error)`. -/
def ParseInt (p : Platform) (s : GoString) : Int × Option NumError :=
  match s with
  | [] => (0, some .ErrSyntax)
  | c0 :: tail =>
    let neg : Bool := c0 ≠ 43 ∧ c0 = 45
    let s1 : GoString := if c0 = 43 then tail else if c0 = 45 then tail else s
    match ParseUint p s1 with
    | (_, some .ErrSyntax) => (0, some .ErrSyntax)
    | (un, _) =>
      let cutoff : Nat := wrapU64 (1 <<< (p.intSize - 1))
      if ¬ neg ∧ un ≥ cutoff then (wrapInt 64 (cutoff - 1 : Nat), some .ErrRange)
      else if neg ∧ un > cutoff then (wrapInt 64 (- wrapInt 64 (cutoff : Nat)), some .ErrRange)
      else
        let n : Int := wrapInt 64 (un : Nat)
        (if neg then wrapInt 64 (- n) else n, none)

/-- The digit loop of the fast path of `strconv.Atoi`; `none` is its syntax error. -/
def atoiFastLoop (bits : Nat) : Int → List Byte → Option Int
  | n, [] => some n
  | n, ch :: rest =>
    let ch : Byte := ch - 48
    if ch > 9 then none
    else atoiFastLoop bits (wrapInt bits (n * 10 + (ch.val : Int))) rest

/-- Go's `strconv.Atoi`: the fast path for short strings, `ParseInt(s, 10, 0)` otherwise.
On an error Go also returns a number, which the handler never reads; it is left out. -/
def Atoi (p : Platform) (s : GoString) : Except NumError Int :=
  let sLen := s.length
  if (p.intSize = 32 ∧ (0 < sLen ∧ sLen < 10)) ∨ (p.intSize = 64 ∧ (0 < sLen ∧ sLen < 19)) then
    match s with
    | [] => .error .ErrSyntax
    | c0 :: tail =>
      let signed : Bool := c0 = 45 ∨ c0 = 43
      if signed ∧ tail.length < 1 then .error .ErrSyntax
      else
        match atoiFastLoop p.intSize 0 (if signed then tail else s) with
        | none => .error .ErrSyntax
        | some n => .ok (if c0 = 45 then wrapInt p.intSize (- n) else n)
  else
    match ParseInt p s with
    | (i64, none) => .ok (wrapInt p.intSize i64)
    | (_, some e) => .error e

/-! ## Integer text, in the words of the specification -/

/-- A decimal digit, `'0'` to `'9'`. -/
def isDigit (c : Byte) : Prop := 48 ≤ c.val ∧ c.val ≤ 57

instance (c : Byte) : Decidable (isDigit c) :=
  inferInstanceAs (Decidable (48 ≤ c.val ∧ c.val ≤ 57))

/-- The value of a string of decimal digits read after the value `n`. -/
def decimalFrom : Nat → List Byte → Nat
  | n, [] => n
  | n, c :: rest => decimalFrom (n * 10 + (c.val - 48)) rest

/-- The value of a string of decimal digits. -/
def decimalValue (digits : List Byte) : Nat := decimalFrom 0 digits

/-- The identifier `s` is an optional leading `'+'` or `'-'` followed by decimal digits
(at least one), and its value is `n`. -/
def IntegerText (s : GoString) (n : Int) : Prop :=
  ∃ digits : List Byte, digits ≠ [] ∧ (∀ c ∈ digits, isDigit c) ∧
    ((s = digits ∧ n = decimalValue digits) ∨
      (s = 43 :: digits ∧ n = decimalValue digits) ∨
      (s = 45 :: digits ∧ n = - (decimalValue digits : Int)))

/-- The integer `n` lies in the range of the platform's `int`. -/
def inIntRange (p : Platform) (n : Int) : Prop :=
  -(2 : Int) ^ (p.intSize - 1) ≤ n ∧ n < (2 : Int) ^ (p.intSize - 1)

/-! ## Records and their JSON encoding -/

/-- The record type `Data` of the source. -/
structure Data where
  ID : Int
  Image : String
  Name : String
  FirstName : String
  Address : String
  PanCard : String
  ExpiryDate : String
deriving DecidableEq, Repr

/-- A Go slice of records: `none` is the nil slice. -/
abbrev Slice := Option (List Data)

/-- The elements a `range` loop visits. -/
def Slice.elems : Slice → List Data
  | none => []
  | some l => l

/-- A JSON value, as `encoding/json` writes it. -/
inductive JSON where
  | null
  | number (n : Int)
  | string (s : String)
  | array (elems : List JSON)
  | object (members : List (String × JSON))

/-- The JSON object of one record: the field tags of `Data`, in declaration order. -/
def marshalData (d : Data) : JSON :=
  .object [("id", .number d.ID), ("jpg", .string d.Image), ("name", .string d.Name),
    ("vorname", .string d.FirstName), ("adresse", .string d.Address),
    ("pan_card_number", .string d.PanCard), ("expiration_date", .string d.ExpiryDate)]

/-- The JSON value of a slice of records: `encoding/json` writes a nil slice as `null`. -/
def marshalSlice : Slice → JSON
  | none => .null
  | some l => .array (l.map marshalData)

/-! ## Requests and the response writer -/

/-- What the server reads of an `http.Request`. The handlers read the header map
(canonical keys) and `r.URL.Path`, the decoded path; the mux reads the method and
`r.URL.EscapedPath()`, the path as it was sent. -/
structure Request where
  Header : List (String × List GoString)
  Path : GoString
  Method : String
  EscapedPath : GoString

/-- Go's `Header.Get`: the first value under the key, or the empty string. -/
def Request.Get (r : Request) (key : String) : GoString :=
  match r.Header.lookup key with
  | some (v :: _) => v
  | _ => []

/-- What was written to the body: text, or one value by `Encoder.Encode`
(the JSON text of the value and a newline). -/
inductive Chunk where
  | text (s : String)
  | json (v : JSON)

/-- The state of an `http.ResponseWriter`. -/
structure ResponseWriter where
  header : List (String × String)
  status : Option Nat
  body : List Chunk

/-- The writer a handler starts from. -/
def ResponseWriter.fresh : ResponseWriter := ⟨[], none, []⟩

/-- Go's `w.Header().Del(key)`. -/
def ResponseWriter.Del (w : ResponseWriter) (key : String) : ResponseWriter :=
  { w with header := w.header.filter (fun kv => kv.1 ≠ key) }

/-- Go's `w.Header().Set(key, value)`. -/
def ResponseWriter.Set (w : ResponseWriter) (key value : String) : ResponseWriter :=
  { w with header := w.header.filter (fun kv => kv.1 ≠ key) ++ [(key, value)] }

/-- The value of a response header. -/
def ResponseWriter.Get (w : ResponseWriter) (key : String) : Option String :=
  w.header.lookup key

/-- Go's `w.WriteHeader(code)`: only the first call counts. -/
def ResponseWriter.WriteHeader (w : ResponseWriter) (code : Nat) : ResponseWriter :=
  match w.status with
  | some _ => w
  | none => { w with status := some code }

/-- Go's `w.Write`: the first write sends status 200 if none was sent. (A write without a
Content-Type would have one sniffed from the data; every write of the handlers follows
a `Set` of the Content-Type.) -/
def ResponseWriter.Write (w : ResponseWriter) (c : Chunk) : ResponseWriter :=
  let w := w.WriteHeader 200
  { w with body := w.body ++ [c] }

/-- Go's `http.Error(w, error, code)`: it sets the two headers, writes the status and
prints the message with `fmt.Fprintln`, that is, followed by a newline. -/
def Error (w : ResponseWriter) (error : String) (code : Nat) : ResponseWriter :=
  let w := w.Del "Content-Length"
  let w := w.Set "Content-Type" "text/plain; charset=utf-8"
  let w := w.Set "X-Content-Type-Options" "nosniff"
  let w := w.WriteHeader code
  w.Write (.text (error ++ "\n"))

/-- Go's `json.NewEncoder(w).Encode(v)` for a value already turned into JSON. -/
def Encode (w : ResponseWriter) (v : JSON) : ResponseWriter :=
  w.Write (.json v)

/-- A handler: `none` stands for a panic of the handler. -/
abbrev Handler := ResponseWriter → Request → Option ResponseWriter

/-! ## The outside world -/

/-- A Go `error` value of the file system or of the JSON decoder. -/
structure GoError where
  msg : String
deriving DecidableEq, Repr

/-- What the server does not decide itself: the width of `int`, the file system
(`ioutil.ReadFile`) and the JSON decoder (`json.Unmarshal(bytes, &data)`, from the
slice before the call to the slice after it and the error). -/
structure Env where
  platform : Platform
  ReadFile : String → Except GoError (List Byte)
  Unmarshal : List Byte → Slice → Slice × Option GoError

/-! ## main.go -/

/-- The source's `readAllJSONData`. -/
def readAllJSONData (env : Env) (filename : String) : Slice × Option GoError :=
  let data : Slice := none
  match env.ReadFile filename with
  | .error err => (none, some err)
  | .ok fileBytes =>
    let (data, err) := env.Unmarshal fileBytes data
    (data, err)

/-- The source's `AuthMiddleware`. -/
def AuthMiddleware (next : Handler) : Handler := fun w r =>
  let token := r.Get "Authorization"
  if token ≠ str "robel" then
    some (Error w "Forbidden" 403)
  else
    next w r

/-- The source's `handleDataRequest`. -/
def handleDataRequest (env : Env) : Handler := fun w _ =>
  match readAllJSONData env "user.json" with
  | (_, some _) => some (Error w "Failed to read data" 500)
  | (data, none) =>
    let w := w.Set "Content-Type" "application/json"
    some (Encode w (marshalSlice data))

/-- The `for _, record := range data` loop of `handleDataByIDRequest`, with the
`http.Error` that follows it. -/
def lookupLoop (w : ResponseWriter) (id : Int) : List Data → ResponseWriter
  | [] => Error w "Data not found" 404
  | record :: rest =>
    if record.ID = id then
      let w := w.Set "Content-Type" "application/json"
      Encode w (marshalData record)
    else lookupLoop w id rest

/-- The source's `handleDataByIDRequest`. -/
def handleDataByIDRequest (env : Env) : Handler := fun w r =>
  match sliceFrom r.Path (str "/data/").length with
  | none => none
  | some idStr =>
    match Atoi env.platform idStr with
    | .error _ => some (Error w "Invalid ID" 400)
    | .ok id =>
      match readAllJSONData env "user.json" with
      | (_, some _) => some (Error w "Failed to read data" 500)
      | (data, none) => some (lookupLoop w id data.elems)

/-- The two patterns `main` registers. -/
inductive Route where
  | data
  | dataID
deriving DecidableEq, Repr

/-- The handler `main` registers under each pattern. -/
def routes (env : Env) : Route → Handler
  | .data => AuthMiddleware (handleDataRequest env)
  | .dataID => AuthMiddleware (handleDataByIDRequest env)

/-- The response of the handler registered under `route` to a request `r` the mux
has delivered to it. Which requests the mux delivers where is `findHandler`. -/
def handle (env : Env) (route : Route) (r : Request) : Option ResponseWriter :=
  routes env route ResponseWriter.fresh r

/-! ## The mux

`http.Handle` registers on `http.DefaultServeMux`, and `http.ListenAndServe(":8080", nil)`
serves with it. What follows is the dispatch of `http.ServeMux` (Go 1.22, where a
pattern may hold a wildcard such as `{id}`) for the two patterns of `main`, neither of
which names a method or a host, on requests in origin form (`GET /path`). -/

/-- The value of a hexadecimal digit (Go's `ishex` and `unhex`). -/
def unhex (c : Byte) : Option Byte :=
  if 48 ≤ c ∧ c ≤ 57 then some (c - 48)
  else if 97 ≤ c ∧ c ≤ 102 then some (c - 97 + 10)
  else if 65 ≤ c ∧ c ≤ 70 then some (c - 65 + 10)
  else none

/-- Go's `url.PathUnescape`: every `%XX` becomes its byte; `none` is the error for a
`%` that two hexadecimal digits do not follow. -/
def PathUnescape : GoString → Option GoString
  | [] => some []
  | c :: rest =>
    if c = 37 then
      match rest with
      | a :: b :: rest2 =>
        match unhex a, unhex b, PathUnescape rest2 with
        | some x, some y, some t => some ((x <<< 4 ||| y) :: t)
        | _, _, _ => none
      | _ => none
    else
      match PathUnescape rest with
      | some t => some (c :: t)
      | none => none

/-- The mux's `pathUnescape`: a segment that does not unescape is used as it is. -/
def pathUnescape (seg : GoString) : GoString :=
  match PathUnescape seg with
  | some u => u
  | none => seg

/-- The pieces of a string between its slashes. -/
def splitSlash : GoString → List GoString
  | [] => [[]]
  | c :: rest =>
    if c = 47 then [] :: splitSlash rest
    else
      match splitSlash rest with
      | [] => [[c]]
      | piece :: pieces => (c :: piece) :: pieces

/-- The segments `firstSegment` takes off a path one after the other: each piece
after a slash, unescaped, and `"/"` for a trailing slash. -/
def unescapeSegments : List GoString → List GoString
  | [] => []
  | [last] => if last = [] then [str "/"] else [pathUnescape last]
  | piece :: pieces => pathUnescape piece :: unescapeSegments pieces

/-- The segments of a path, as the routing tree walks them. -/
def segments (path : GoString) : List GoString :=
  if path = [] then [] else unescapeSegments (splitSlash (path.drop 1))

/-- The nodes of the routing tree of the two patterns below the host and the method
level: the root, the node of `/data` and the node of `/data/{id}`. -/
inductive Node where
  | root
  | data
  | dataID
deriving DecidableEq, Repr

/-- The pattern a node is a leaf of. -/
def Node.pattern : Node → Option Route
  | .root => none
  | .data => some .data
  | .dataID => some .dataID

/-- The child for a single wildcard. -/
def Node.emptyChild : Node → Option Node
  | .data => some .dataID
  | _ => none

/-- Go's `findChild`: the child for a literal segment; the empty key is the wildcard
child. -/
def Node.findChild (n : Node) (key : GoString) : Option Node :=
  if key = [] then n.emptyChild
  else
    match n with
    | .root => if key = str "data" then some .data else none
    | _ => none

/-- Go's `matchPath` on the segments still to match: a literal child first, then the
single wildcard, which matches no trailing slash; there is no multi wildcard. -/
def matchPath : Option Node → List GoString → Option Route
  | none, _ => none
  | some n, [] => n.pattern
  | some n, seg :: rest =>
    match matchPath (n.findChild seg) rest with
    | some route => some route
    | none => if seg ≠ str "/" then matchPath n.emptyChild rest else none

/-- The match of a path against the routing tree. -/
def treeMatch (path : GoString) : Option Route :=
  matchPath (some .root) (segments path)

/-- What `path.Clean` keeps of the elements of a rooted path; `stack` holds the kept
elements, last first. -/
def cleanElems : List GoString → List GoString → List GoString
  | stack, [] => stack.reverse
  | stack, e :: rest =>
    if e = [] ∨ e = str "." then cleanElems stack rest
    else if e = str ".." then cleanElems (stack.drop 1) rest
    else cleanElems (e :: stack) rest

/-- Go's `path.Clean` on a rooted path. -/
def Clean (p : GoString) : GoString :=
  str "/" ++ (str "/").intercalate (cleanElems [] (splitSlash (p.drop 1)))

/-- The mux's `cleanPath`: the path rooted and cleaned, its trailing slash kept. -/
def cleanPath (p : GoString) : GoString :=
  if p = [] then str "/"
  else
    let p := if p.head? ≠ some 47 then str "/" ++ p else p
    let np := Clean p
    if p.getLast? = some 47 ∧ np ≠ str "/" then np ++ str "/" else np

/-- Go's `matchOrRedirect`: the match, or the path to redirect to when only the path
with a slash added matches. `u` is the path of the URL passed, `none` for no URL.
No pattern ends in a multi wildcard, so every match is exact. -/
def matchOrRedirect (path : GoString) (u : Option GoString) : Option Route × Option GoString :=
  let n := treeMatch path
  match u with
  | some uPath =>
    if n = none ∧ path.getLast? ≠ some 47 then
      if treeMatch (path ++ str "/") ≠ none then (none, some (cleanPath uPath ++ str "/"))
      else (n, none)
    else (n, none)
  | none => (n, none)

/-- The handler the mux finds for a request. -/
inductive Dispatch where
  | route (route : Route)
  | redirect (path : GoString)
  | notFound
deriving DecidableEq, Repr

/-- Go's `ServeMux.findHandler`: the registered handler of the matching pattern, a
redirect to the cleaned path, or the not-found handler. -/
def findHandler (r : Request) : Dispatch :=
  let escapedPath := r.EscapedPath
  if r.Method = "CONNECT" then
    match (matchOrRedirect escapedPath (some r.Path)).2 with
    | some u => .redirect u
    | none =>
      match (matchOrRedirect escapedPath none).1 with
      | some route => .route route
      | none => .notFound
  else
    let path := cleanPath escapedPath
    match matchOrRedirect path (some r.Path) with
    | (_, some u) => .redirect u
    | (n, none) =>
      if path ≠ escapedPath then .redirect path
      else
        match n with
        | some route => .route route
        | none => .notFound

/-- What the server answers. -/
inductive Reply where
  | response (out : Option ResponseWriter)
  | moved (path : GoString)

/-- The server of `main`: the mux finds the handler and runs it on a fresh writer.
The not-found handler is `http.NotFound`; the redirect handler answers 301 with the
path as Location. -/
def serve (env : Env) (r : Request) : Reply :=
  match findHandler r with
  | .route route => .response (handle env route r)
  | .notFound => .response (some (Error ResponseWriter.fresh "404 page not found" 404))
  | .redirect path => .moved path

/-! ## Sample stores and requests -/

/-- A stored record with id 1. -/
def record1 : Data := ⟨1, "1.jpg", "Abraham", "Robel", "Berlin", "ABCDE1234F", "2030-12-31"⟩

/-- A stored record with id 2. -/
def record2 : Data := ⟨2, "2.jpg", "Muster", "Max", "Hamburg", "XYZAB9876K", "2028-06-30"⟩

/-- A second record with id 1. -/
def record1b : Data := ⟨1, "3.jpg", "Doe", "Jane", "Bonn", "QQQQQ0000Q", "2027-01-01"⟩

/-- The text of `record1` in the file. -/
def record1Text : String :=
  "\x7b\"id\":1,\"jpg\":\"1.jpg\",\"name\":\"Abraham\",\"vorname\":\"Robel\",\"adresse\":\"Berlin\",\"pan_card_number\":\"ABCDE1234F\",\"expiration_date\":\"2030-12-31\"\x7d"

/-- The text of `record2` in the file. -/
def record2Text : String :=
  "\x7b\"id\":2,\"jpg\":\"2.jpg\",\"name\":\"Muster\",\"vorname\":\"Max\",\"adresse\":\"Hamburg\",\"pan_card_number\":\"XYZAB9876K\",\"expiration_date\":\"2028-06-30\"\x7d"

/-- The text of `record1b` in the file. -/
def record1bText : String :=
  "\x7b\"id\":1,\"jpg\":\"3.jpg\",\"name\":\"Doe\",\"vorname\":\"Jane\",\"adresse\":\"Bonn\",\"pan_card_number\":\"QQQQQ0000Q\",\"expiration_date\":\"2027-01-01\"\x7d"

/-- A world whose `user.json` holds `content`, which `json.Unmarshal` decodes to `decoded`;
no other file exists. -/
def fileEnv (p : Platform) (content : GoString) (decoded : Slice × Option GoError) : Env :=
  ⟨p,
    fun name => if name = "user.json" then .ok content
      else .error ⟨"open " ++ name ++ ": no such file or directory"⟩,
    fun _ _ => decoded⟩

/-- The store of the spec's scenario: records with ids 1 and 2. -/
def sampleEnv : Env :=
  fileEnv .bits64 (str ("[" ++ record1Text ++ "," ++ record2Text ++ "]"))
    (some [record1, record2], none)

/-- A store in which two records share the id 1, after a record with id 2. -/
def duplicateEnv : Env :=
  fileEnv .bits64 (str ("[" ++ record2Text ++ "," ++ record1Text ++ "," ++ record1bText ++ "]"))
    (some [record2, record1, record1b], none)

/-- A store whose file content is the JSON value `null`: the slice stays nil, no error. -/
def nullEnv : Env := fileEnv .bits64 (str "null") (none, none)

/-- A store whose file content is the empty JSON array: an empty, non-nil slice. -/
def emptyEnv : Env := fileEnv .bits64 (str "[]") (some [], none)

/-- A world without `user.json`. -/
def missingEnv : Env :=
  ⟨.bits64, fun name => .error ⟨"open " ++ name ++ ": no such file or directory"⟩,
    fun _ data => (data, none)⟩

/-- A store whose second record has a string where the id is expected: the decoder
hands back both decoded records (the second with id 0) and a type error. -/
def brokenEnv : Env :=
  fileEnv .bits32 (str "[\x7b\"id\":1\x7d,\x7b\"id\":\"x\"\x7d]")
    (some [⟨1, "", "", "", "", "", ""⟩, ⟨0, "", "", "", "", "", ""⟩],
      some ⟨"json: cannot unmarshal string into Go struct field Data.id of type int"⟩)

/-- A request carrying the shared secret. -/
def authReq (path : String) : Request :=
  ⟨[("Authorization", [str "robel"])], str path, "GET", str path⟩

/-- A request without an Authorization header. -/
def anonReq (path : String) : Request := ⟨[], str path, "GET", str path⟩

/-- A request as the sample client sends it for a single record. -/
def bearerReq (path : String) : Request :=
  ⟨[("Authorization", [str "Bearer your_generated_token"])], str path, "GET", str path⟩

/-! ## Lemmas on the library model -/

theorem str_data_length : (str "/data/").length = 6 := by decide

theorem sliceFrom_append (idStr : GoString) :
    sliceFrom (str "/data/" ++ idStr) (str "/data/").length = some idStr := by
  simp [sliceFrom]

theorem Error_fresh (msg : String) (code : Nat) :
    Error ResponseWriter.fresh msg code =
      ⟨[("Content-Type", "text/plain; charset=utf-8"), ("X-Content-Type-Options", "nosniff")],
        some code, [.text (msg ++ "\n")]⟩ := by
  rfl

theorem Encode_fresh (v : JSON) :
    Encode (ResponseWriter.fresh.Set "Content-Type" "application/json") v =
      ⟨[("Content-Type", "application/json")], some 200, [.json v]⟩ := by
  rfl

/-! ## strconv.Atoi reads integer text -/

set_option maxRecDepth 100000 in
theorem fast_digit : ∀ c : Byte, (c - 48 > 9 ↔ ¬ isDigit c) ∧
    (isDigit c → (c - 48 : Byte).val = c.val - 48 ∧ c.val - 48 ≤ 9) := by
  decide

set_option maxRecDepth 100000 in
theorem digitValue_spec : ∀ c : Byte,
    (isDigit c → digitValue c = some (c - 48) ∧ ¬ ((c - 48 : Byte) ≥ 10)) ∧
      (¬ isDigit c → digitValue c = none ∨ ∃ d, digitValue c = some d ∧ d ≥ 10) := by
  decide

theorem maxVal_32 : maxVal 32 = 4294967295 := by decide

theorem maxVal_64 : maxVal 64 = 18446744073709551615 := by decide

theorem wrapInt_32 (x : Int) (h1 : -2147483648 ≤ x) (h2 : x < 2147483648) :
    wrapInt 32 x = x := by
  simp only [wrapInt]
  norm_num
  omega

theorem wrapInt_64 (x : Int) (h1 : -9223372036854775808 ≤ x) (h2 : x < 9223372036854775808) :
    wrapInt 64 x = x := by
  simp only [wrapInt]
  norm_num
  omega

theorem decimalFrom_nil (n : Nat) : decimalFrom n [] = n := rfl

theorem decimalFrom_cons (n : Nat) (c : Byte) (rest : List Byte) :
    decimalFrom n (c :: rest) = decimalFrom (n * 10 + (c.val - 48)) rest := rfl

theorem decimalFrom_ge (ds : List Byte) : ∀ n : Nat, n ≤ decimalFrom n ds := by
  induction ds with
  | nil => intro n; exact Nat.le_refl n
  | cons c rest ih =>
    intro n
    rw [decimalFrom_cons]
    have := ih (n * 10 + (c.val - 48))
    omega

theorem decimalFrom_lt (ds : List Byte) :
    ∀ n : Nat, (∀ c ∈ ds, isDigit c) → decimalFrom n ds < (n + 1) * 10 ^ ds.length := by
  induction ds with
  | nil =>
    intro n _
    rw [decimalFrom_nil, List.length_nil, pow_zero]
    omega
  | cons c rest ih =>
    intro n hall
    rw [decimalFrom_cons, List.length_cons]
    have hc := ((fast_digit c).2 (hall c (List.mem_cons_self c rest))).2
    have hrest := ih (n * 10 + (c.val - 48)) (fun x hx => hall x (List.mem_cons_of_mem c hx))
    have h10 : n * 10 + (c.val - 48) + 1 ≤ (n + 1) * 10 := by omega
    have hle : (n * 10 + (c.val - 48) + 1) * 10 ^ rest.length
        ≤ ((n + 1) * 10) * 10 ^ rest.length :=
      Nat.mul_le_mul_right _ h10
    calc decimalFrom (n * 10 + (c.val - 48)) rest
        < (n * 10 + (c.val - 48) + 1) * 10 ^ rest.length := hrest
      _ ≤ ((n + 1) * 10) * 10 ^ rest.length := hle
      _ = (n + 1) * 10 ^ (rest.length + 1) := by ring

theorem atoiFastLoop_nil (bits : Nat) (n : Int) : atoiFastLoop bits n [] = some n := rfl

theorem atoiFastLoop_cons (bits : Nat) (n : Int) (c : Byte) (rest : List Byte) :
    atoiFastLoop bits n (c :: rest) =
      if (c - 48 : Byte) > 9 then none
      else atoiFastLoop bits (wrapInt bits (n * 10 + ((c - 48 : Byte).val : Int))) rest := rfl

theorem atoiFastLoop_some (bits : Nat) (ds : List Byte) :
    ∀ (n m : Int), atoiFastLoop bits n ds = some m → ∀ c ∈ ds, isDigit c := by
  induction ds with
  | nil => intro n m _ c hc; simp at hc
  | cons c rest ih =>
    intro n m h x hx
    rw [atoiFastLoop_cons] at h
    by_cases hgt : (c - 48 : Byte) > 9
    · rw [if_pos hgt] at h
      exact absurd h (by simp)
    · rw [if_neg hgt] at h
      rcases List.mem_cons.mp hx with rfl | hx
      · by_contra hnd
        exact hgt ((fast_digit x).1.2 hnd)
      · exact ih _ m h x hx

theorem atoiFastLoop_digits (bits : Nat) (hbits : bits = 32 ∨ bits = 64) (ds : List Byte) :
    ∀ n : Nat, (∀ c ∈ ds, isDigit c) → (n + 1) * 10 ^ ds.length ≤ 2 ^ (bits - 1) →
      atoiFastLoop bits (n : Int) ds = some ((decimalFrom n ds : Nat) : Int) := by
  induction ds with
  | nil => intro n _ _; rfl
  | cons c rest ih =>
    intro n hall hb
    have hd := hall c (List.mem_cons_self c rest)
    have hc := (fast_digit c).2 hd
    have hgt : ¬ ((c - 48 : Byte) > 9) := fun h => (fast_digit c).1.1 h hd
    rw [atoiFastLoop_cons, if_neg hgt, decimalFrom_cons, hc.1]
    rw [List.length_cons, pow_succ] at hb
    have h10 : n * 10 + (c.val - 48) + 1 ≤ (n + 1) * 10 := by omega
    have hb2 : (n * 10 + (c.val - 48) + 1) * 10 ^ rest.length ≤ 2 ^ (bits - 1) :=
      calc (n * 10 + (c.val - 48) + 1) * 10 ^ rest.length
          ≤ ((n + 1) * 10) * 10 ^ rest.length := Nat.mul_le_mul_right _ h10
        _ = (n + 1) * (10 ^ rest.length * 10) := by ring
        _ ≤ 2 ^ (bits - 1) := hb
    have hpos : 1 ≤ 10 ^ rest.length := Nat.one_le_pow _ _ (by omega)
    have hsmall : n * 10 + (c.val - 48) + 1 ≤ 2 ^ (bits - 1) :=
      le_trans (Nat.le_mul_of_pos_right _ hpos) hb2
    have hwrap : wrapInt bits ((n : Int) * 10 + ((c.val - 48 : Nat) : Int))
        = ((n * 10 + (c.val - 48) : Nat) : Int) := by
      rcases hbits with rfl | rfl
      · rw [wrapInt_32] <;> norm_num at hsmall ⊢ <;> omega
      · rw [wrapInt_64] <;> norm_num at hsmall ⊢ <;> omega
    rw [hwrap]
    exact ih _ (fun x hx => hall x (List.mem_cons_of_mem c hx)) hb2

theorem parseUintLoop_nil (bits n : Nat) : parseUintLoop bits n [] = (n, none) := rfl

theorem parseUintLoop_cons (bits n : Nat) (c : Byte) (rest : List Byte) :
    parseUintLoop bits n (c :: rest) =
      match digitValue c with
      | none => (0, some .ErrSyntax)
      | some d =>
        if d ≥ 10 then (0, some .ErrSyntax)
        else if n ≥ (2 ^ 64 - 1) / 10 + 1 then (maxVal bits, some .ErrRange)
        else if wrapU64 (wrapU64 (n * 10) + d.val) < wrapU64 (n * 10) ∨
            wrapU64 (wrapU64 (n * 10) + d.val) > maxVal bits then
          (maxVal bits, some .ErrRange)
        else parseUintLoop bits (wrapU64 (wrapU64 (n * 10) + d.val)) rest := rfl

theorem maxVal_lt (bits : Nat) (hbits : bits = 32 ∨ bits = 64) :
    maxVal bits < 18446744073709551616 := by
  rcases hbits with rfl | rfl
  · rw [maxVal_32]; omega
  · rw [maxVal_64]; omega

theorem parseUintLoop_digits (bits : Nat) (hbits : bits = 32 ∨ bits = 64) (ds : List Byte) :
    ∀ n : Nat, (∀ c ∈ ds, isDigit c) → n ≤ maxVal bits →
      parseUintLoop bits n ds =
        if decimalFrom n ds ≤ maxVal bits then (decimalFrom n ds, none)
        else (maxVal bits, some .ErrRange) := by
  have hM := maxVal_lt bits hbits
  induction ds with
  | nil =>
    intro n _ hn
    rw [parseUintLoop_nil, decimalFrom_nil, if_pos hn]
  | cons c rest ih =>
    intro n hall hn
    have hd := hall c (List.mem_cons_self c rest)
    have hc := (fast_digit c).2 hd
    have hv := (digitValue_spec c).1 hd
    have hge := decimalFrom_ge rest (n * 10 + (c.val - 48))
    rw [parseUintLoop_cons, hv.1, decimalFrom_cons]
    simp only [if_neg hv.2, hc.1, wrapU64]
    norm_num
    by_cases hcut : 1844674407370955162 ≤ n
    · rw [if_pos hcut, if_neg (by omega)]
    · rw [if_neg hcut]
      have h1 : n * 10 % 18446744073709551616 = n * 10 := Nat.mod_eq_of_lt (by omega)
      rw [h1]
      by_cases hov : 18446744073709551616 ≤ n * 10 + (c.val - 48)
      · have h2 : (n * 10 + (c.val - 48)) % 18446744073709551616 < n * 10 := by omega
        rw [if_pos (Or.inl h2), if_neg (by omega)]
      · have h2 : (n * 10 + (c.val - 48)) % 18446744073709551616 = n * 10 + (c.val - 48) :=
          Nat.mod_eq_of_lt (by omega)
        rw [h2]
        by_cases hbig : maxVal bits < n * 10 + (c.val - 48)
        · rw [if_pos (Or.inr hbig), if_neg (by omega)]
        · rw [if_neg (by omega)]
          exact ih _ (fun x hx => hall x (List.mem_cons_of_mem c hx)) (by omega)

theorem parseUintLoop_shape (bits : Nat) (ds : List Byte) :
    ∀ n : Nat, parseUintLoop bits n ds = (0, some .ErrSyntax) ∨
      parseUintLoop bits n ds = (maxVal bits, some .ErrRange) ∨
      ((∃ v, parseUintLoop bits n ds = (v, none)) ∧ ∀ c ∈ ds, isDigit c) := by
  induction ds with
  | nil =>
    intro n
    exact Or.inr (Or.inr ⟨⟨n, rfl⟩, by simp⟩)
  | cons c rest ih =>
    intro n
    rw [parseUintLoop_cons]
    cases hv : digitValue c with
    | none => exact Or.inl rfl
    | some d =>
      simp only
      by_cases hd : d ≥ 10
      · rw [if_pos hd]
        exact Or.inl rfl
      · rw [if_neg hd]
        have hdig : isDigit c := by
          by_contra hnd
          rcases (digitValue_spec c).2 hnd with h | ⟨d2, h, h2⟩
          · rw [hv] at h
            exact absurd h (by simp)
          · rw [hv] at h
            exact hd (by rw [Option.some.inj h]; exact h2)
        split
        · exact Or.inr (Or.inl rfl)
        · split
          · exact Or.inr (Or.inl rfl)
          · rcases ih (wrapU64 (wrapU64 (n * 10) + d.val)) with h | h | ⟨h, hall⟩
            · exact Or.inl h
            · exact Or.inr (Or.inl h)
            · refine Or.inr (Or.inr ⟨h, ?_⟩)
              intro x hx
              rcases List.mem_cons.mp hx with rfl | hx
              · exact hdig
              · exact hall x hx

theorem ParseUint_digits (p : Platform) (ds : List Byte) (hne : ds ≠ [])
    (hall : ∀ c ∈ ds, isDigit c) :
    ParseUint p ds =
      if decimalValue ds ≤ maxVal p.intSize then (decimalValue ds, none)
      else (maxVal p.intSize, some .ErrRange) := by
  have hbits : p.intSize = 32 ∨ p.intSize = 64 := by cases p <;> simp [Platform.intSize]
  rw [ParseUint, if_neg hne]
  exact parseUintLoop_digits p.intSize hbits ds 0 hall (Nat.zero_le _)

theorem ParseUint_shape (p : Platform) (s : List Byte) :
    ParseUint p s = (0, some .ErrSyntax) ∨
      ParseUint p s = (maxVal p.intSize, some .ErrRange) ∨
      ((∃ v, ParseUint p s = (v, none)) ∧ s ≠ [] ∧ ∀ c ∈ s, isDigit c) := by
  by_cases hs : s = []
  · left
    rw [ParseUint, if_pos hs]
  · rw [ParseUint, if_neg hs]
    rcases parseUintLoop_shape p.intSize s 0 with h | h | ⟨h, hall⟩
    · exact Or.inl h
    · exact Or.inr (Or.inl h)
    · exact Or.inr (Or.inr ⟨h, hs, hall⟩)

theorem not_isDigit_sign : ¬ isDigit 43 ∧ ¬ isDigit 45 := by decide

theorem IntegerText_cons (c0 : Byte) (tail : List Byte) (v : Int) :
    IntegerText (c0 :: tail) v ↔
      (if c0 = 43 then tail else if c0 = 45 then tail else c0 :: tail) ≠ [] ∧
        (∀ c ∈ (if c0 = 43 then tail else if c0 = 45 then tail else c0 :: tail), isDigit c) ∧
        v = if c0 = 45
          then - ((decimalValue
            (if c0 = 43 then tail else if c0 = 45 then tail else c0 :: tail) : Nat) : Int)
          else ((decimalValue
            (if c0 = 43 then tail else if c0 = 45 then tail else c0 :: tail) : Nat) : Int) := by
  by_cases h43 : c0 = 43
  · subst h43
    have h45 : ¬ ((43 : Byte) = 45) := by decide
    simp only [if_true, if_neg h45]
    constructor
    · rintro ⟨ds, hne, hall, h | h | h⟩
      · obtain ⟨hs, hv⟩ := h
        exact absurd (hall 43 (by rw [← hs]; exact List.mem_cons_self _ _)) not_isDigit_sign.1
      · obtain ⟨hs, hv⟩ := h
        obtain rfl := (List.cons.inj hs).2
        exact ⟨hne, hall, hv⟩
      · obtain ⟨hs, hv⟩ := h
        exact absurd (List.cons.inj hs).1 h45
    · rintro ⟨hne, hall, hv⟩
      exact ⟨tail, hne, hall, Or.inr (Or.inl ⟨rfl, hv⟩)⟩
  · by_cases h45 : c0 = 45
    · subst h45
      simp only [if_neg h43, if_true]
      constructor
      · rintro ⟨ds, hne, hall, h | h | h⟩
        · obtain ⟨hs, hv⟩ := h
          exact absurd (hall 45 (by rw [← hs]; exact List.mem_cons_self _ _)) not_isDigit_sign.2
        · obtain ⟨hs, hv⟩ := h
          exact absurd (List.cons.inj hs).1 h43
        · obtain ⟨hs, hv⟩ := h
          obtain rfl := (List.cons.inj hs).2
          exact ⟨hne, hall, hv⟩
      · rintro ⟨hne, hall, hv⟩
        exact ⟨tail, hne, hall, Or.inr (Or.inr ⟨rfl, hv⟩)⟩
    · simp only [if_neg h43, if_neg h45]
      constructor
      · rintro ⟨ds, hne, hall, h | h | h⟩
        · obtain ⟨hs, hv⟩ := h
          subst hs
          exact ⟨hne, hall, hv⟩
        · obtain ⟨hs, hv⟩ := h
          exact absurd (List.cons.inj hs).1 h43
        · obtain ⟨hs, hv⟩ := h
          exact absurd (List.cons.inj hs).1 h45
      · rintro ⟨hne, hall, hv⟩
        exact ⟨c0 :: tail, hne, hall, Or.inl ⟨rfl, hv⟩⟩

theorem IntegerText_nil (v : Int) : ¬ IntegerText [] v := by
  rintro ⟨ds, hne, _, h | h | h⟩
  · exact hne h.1.symm
  · exact absurd h.1 (by simp)
  · exact absurd h.1 (by simp)

theorem shl_31 : wrapU64 (1 <<< (32 - 1)) = 2147483648 := by decide

theorem shl_63 : wrapU64 (1 <<< (64 - 1)) = 9223372036854775808 := by decide

theorem wrapInt_64_min : wrapInt 64 9223372036854775808 = -9223372036854775808 := by
  simp only [wrapInt]
  norm_num

theorem wrapInt_neg_wrapInt (d : Nat) (hd : d ≤ 9223372036854775808) :
    wrapInt 64 (- wrapInt 64 (d : Int)) = - (d : Int) := by
  by_cases h : d = 9223372036854775808
  · subst h
    rw [Nat.cast_ofNat, wrapInt_64_min, neg_neg, wrapInt_64_min]
  · rw [wrapInt_64 (d : Int) (by omega) (by omega), wrapInt_64 _ (by omega) (by omega)]

theorem ParseInt_syntax_err (p : Platform) (c0 : Byte) (tail : List Byte) (v : Int)
    (h : ParseUint p (if c0 = 43 then tail else if c0 = 45 then tail else c0 :: tail)
      = (0, some .ErrSyntax)) :
    ParseInt p (c0 :: tail) ≠ (v, none) := by
  simp [ParseInt, h]

theorem ParseInt_range_err (p : Platform) (c0 : Byte) (tail : List Byte) (v : Int)
    (h : ParseUint p (if c0 = 43 then tail else if c0 = 45 then tail else c0 :: tail)
      = (maxVal p.intSize, some .ErrRange)) :
    ParseInt p (c0 :: tail) ≠ (v, none) := by
  have h4345 : ¬ ((45 : Byte) = 43) := by decide
  simp only [ParseInt, h]
  by_cases h45 : c0 = 45
  · subst h45
    cases p
    · simp only [Platform.intSize, maxVal_32, shl_31]
      norm_num [h4345]
      intro _ hf
      cases hf
    · simp only [Platform.intSize, maxVal_64, shl_63]
      norm_num [h4345]
      intro _ hf
      cases hf
  · cases p
    · simp only [Platform.intSize, maxVal_32, shl_31]
      norm_num [h45]
      intro _ hf
      cases hf
    · simp only [Platform.intSize, maxVal_64, shl_63]
      norm_num [h45]
      intro _ hf
      cases hf

theorem ParseInt_ok (p : Platform) (c0 : Byte) (tail : List Byte) (v : Int) (d : Nat)
    (h : ParseUint p (if c0 = 43 then tail else if c0 = 45 then tail else c0 :: tail)
      = (d, none)) :
    ParseInt p (c0 :: tail) = (v, none) ↔
      v = (if c0 = 45 then - (d : Int) else (d : Int)) ∧ inIntRange p v := by
  have h4345 : ¬ ((45 : Byte) = 43) := by decide
  simp only [ParseInt, h, inIntRange]
  by_cases h45 : c0 = 45
  · subst h45
    cases p
    · simp only [Platform.intSize, shl_31, h4345, ne_eq, not_false_eq_true, and_self,
        decide_True, not_true_eq_false, false_and, if_false, true_and, if_true]
      by_cases hgt : d > 2147483648
      · rw [if_pos hgt]
        constructor
        · intro hf
          cases (Prod.mk.inj hf).2
        · rintro ⟨rfl, h1, _⟩
          norm_num at h1
          omega
      · rw [if_neg hgt, wrapInt_neg_wrapInt d (by omega)]
        constructor
        · intro hf
          have hv := (Prod.mk.inj hf).1
          subst hv
          norm_num
          omega
        · rintro ⟨rfl, _, _⟩
          rfl
    · simp only [Platform.intSize, shl_63, h4345, ne_eq, not_false_eq_true, and_self,
        decide_True, not_true_eq_false, false_and, if_false, true_and, if_true]
      by_cases hgt : d > 9223372036854775808
      · rw [if_pos hgt]
        constructor
        · intro hf
          cases (Prod.mk.inj hf).2
        · rintro ⟨rfl, h1, _⟩
          norm_num at h1
          omega
      · rw [if_neg hgt, wrapInt_neg_wrapInt d (by omega)]
        constructor
        · intro hf
          have hv := (Prod.mk.inj hf).1
          subst hv
          norm_num
          omega
        · rintro ⟨rfl, _, _⟩
          rfl
  · cases p
    · simp only [Platform.intSize, shl_31, h45, and_false, decide_False, Bool.false_eq_true,
        not_false_eq_true, true_and, false_and, if_false]
      by_cases hge : d ≥ 2147483648
      · rw [if_pos hge]
        constructor
        · intro hf
          cases (Prod.mk.inj hf).2
        · rintro ⟨rfl, _, h2⟩
          norm_num at h2
          omega
      · rw [if_neg hge, wrapInt_64 (d : Int) (by omega) (by omega)]
        constructor
        · intro hf
          have hv := (Prod.mk.inj hf).1
          subst hv
          norm_num
          omega
        · rintro ⟨rfl, _, _⟩
          rfl
    · simp only [Platform.intSize, shl_63, h45, and_false, decide_False, Bool.false_eq_true,
        not_false_eq_true, true_and, false_and, if_false]
      by_cases hge : d ≥ 9223372036854775808
      · rw [if_pos hge]
        constructor
        · intro hf
          cases (Prod.mk.inj hf).2
        · rintro ⟨rfl, _, h2⟩
          norm_num at h2
          omega
      · rw [if_neg hge, wrapInt_64 (d : Int) (by omega) (by omega)]
        constructor
        · intro hf
          have hv := (Prod.mk.inj hf).1
          subst hv
          norm_num
          omega
        · rintro ⟨rfl, _, _⟩
          rfl

theorem ParseInt_ok_iff (p : Platform) (s : GoString) (v : Int) :
    ParseInt p s = (v, none) ↔ IntegerText s v ∧ inIntRange p v := by
  cases s with
  | nil =>
    constructor
    · intro h
      simp [ParseInt] at h
    · rintro ⟨h, _⟩
      exact absurd h (IntegerText_nil v)
  | cons c0 tail =>
    rw [IntegerText_cons]
    by_cases hd : (if c0 = 43 then tail else if c0 = 45 then tail else c0 :: tail) ≠ [] ∧
        ∀ c ∈ (if c0 = 43 then tail else if c0 = 45 then tail else c0 :: tail), isDigit c
    · have hu := ParseUint_digits p _ hd.1 hd.2
      by_cases hM : decimalValue (if c0 = 43 then tail else if c0 = 45 then tail else c0 :: tail)
          ≤ maxVal p.intSize
      · rw [if_pos hM] at hu
        rw [ParseInt_ok p c0 tail v _ hu]
        constructor
        · rintro ⟨hv, hr⟩
          exact ⟨⟨hd.1, hd.2, hv⟩, hr⟩
        · rintro ⟨⟨_, _, hv⟩, hr⟩
          exact ⟨hv, hr⟩
      · rw [if_neg hM] at hu
        constructor
        · intro h
          exact absurd h (ParseInt_range_err p c0 tail v hu)
        · rintro ⟨⟨_, _, hv⟩, hr⟩
          exfalso
          revert hM hr hv
          generalize decimalValue (if c0 = 43 then tail else if c0 = 45 then tail else c0 :: tail)
            = D
          intro hM hr hv
          cases p
          · simp only [Platform.intSize, maxVal_32, inIntRange] at hM hr
            norm_num at hr
            split_ifs at hv <;> omega
          · simp only [Platform.intSize, maxVal_64, inIntRange] at hM hr
            norm_num at hr
            split_ifs at hv <;> omega
    · constructor
      · intro h
        rcases ParseUint_shape p (if c0 = 43 then tail else if c0 = 45 then tail else c0 :: tail)
          with hs | hr | ⟨_, hne, hall⟩
        · exact absurd h (ParseInt_syntax_err p c0 tail v hs)
        · exact absurd h (ParseInt_range_err p c0 tail v hr)
        · exact absurd ⟨hne, hall⟩ hd
      · rintro ⟨⟨hne, hall, _⟩, _⟩
        exact absurd ⟨hne, hall⟩ hd

theorem inIntRange_wrapInt (p : Platform) (v : Int) (h : inIntRange p v) :
    wrapInt p.intSize v = v := by
  cases p
  · simp only [Platform.intSize, inIntRange] at h ⊢
    norm_num at h
    exact wrapInt_32 v h.1 h.2
  · simp only [Platform.intSize, inIntRange] at h ⊢
    norm_num at h
    exact wrapInt_64 v h.1 h.2

theorem fast_value (p : Platform) (ds : List Byte)
    (hlen : (p.intSize = 32 ∧ ds.length < 10) ∨ (p.intSize = 64 ∧ ds.length < 19))
    (hall : ∀ c ∈ ds, isDigit c) :
    atoiFastLoop p.intSize 0 ds = some ((decimalValue ds : Nat) : Int) ∧
      decimalValue ds < 2 ^ (p.intSize - 1) := by
  have hbits : p.intSize = 32 ∨ p.intSize = 64 := by cases p <;> simp [Platform.intSize]
  have hpow : 10 ^ ds.length ≤ 2 ^ (p.intSize - 1) := by
    rcases hlen with ⟨hb, hl⟩ | ⟨hb, hl⟩
    · rw [hb]
      calc 10 ^ ds.length ≤ 10 ^ 9 := Nat.pow_le_pow_right (by omega) (by omega)
        _ ≤ 2 ^ (32 - 1) := by norm_num
    · rw [hb]
      calc 10 ^ ds.length ≤ 10 ^ 18 := Nat.pow_le_pow_right (by omega) (by omega)
        _ ≤ 2 ^ (64 - 1) := by norm_num
  have hlt := decimalFrom_lt ds 0 hall
  rw [Nat.zero_add, Nat.one_mul] at hlt
  refine ⟨?_, lt_of_lt_of_le hlt hpow⟩
  have := atoiFastLoop_digits p.intSize hbits ds 0 hall (by rw [Nat.zero_add, Nat.one_mul]; exact hpow)
  simpa using this

theorem Atoi_slow (p : Platform) (s : GoString)
    (h : ¬ ((p.intSize = 32 ∧ (0 < s.length ∧ s.length < 10)) ∨
      (p.intSize = 64 ∧ (0 < s.length ∧ s.length < 19)))) (n : Int) :
    Atoi p s = .ok n ↔ IntegerText s n ∧ inIntRange p n := by
  rw [← ParseInt_ok_iff]
  simp only [Atoi, if_neg h]
  cases hpi : ParseInt p s with
  | mk v e =>
    cases e with
    | none =>
      have hr := ((ParseInt_ok_iff p s v).1 hpi).2
      simp only [inIntRange_wrapInt p v hr]
      constructor
      · intro hv
        rw [Except.ok.inj hv]
      · intro hv
        rw [(Prod.mk.inj hv).1]
    | some e =>
      simp

theorem Atoi_fast (p : Platform) (c0 : Byte) (tail : List Byte)
    (h : (p.intSize = 32 ∧ (0 < (c0 :: tail).length ∧ (c0 :: tail).length < 10)) ∨
      (p.intSize = 64 ∧ (0 < (c0 :: tail).length ∧ (c0 :: tail).length < 19))) (n : Int) :
    Atoi p (c0 :: tail) = .ok n ↔ IntegerText (c0 :: tail) n ∧ inIntRange p n := by
  have h4345 : ¬ ((45 : Byte) = 43) := by decide
  have hs1 : (if c0 = 43 then tail else if c0 = 45 then tail else c0 :: tail)
      = (if c0 = 45 ∨ c0 = 43 then tail else c0 :: tail) := by
    by_cases h43 : c0 = 43
    · simp [h43]
    · by_cases h45 : c0 = 45
      · simp [h45]
      · simp [h43, h45]
  rw [IntegerText_cons, hs1]
  simp only [Atoi, if_pos h, decide_eq_true_eq]
  have hlen : (p.intSize = 32 ∧ (if c0 = 45 ∨ c0 = 43 then tail else c0 :: tail).length < 10) ∨
      (p.intSize = 64 ∧ (if c0 = 45 ∨ c0 = 43 then tail else c0 :: tail).length < 19) := by
    have hle : (if c0 = 45 ∨ c0 = 43 then tail else c0 :: tail).length ≤ (c0 :: tail).length := by
      split_ifs <;> simp
    rcases h with ⟨hb, _, hl⟩ | ⟨hb, _, hl⟩
    · exact Or.inl ⟨hb, by omega⟩
    · exact Or.inr ⟨hb, by omega⟩
  have hempty : ((c0 = 45 ∨ c0 = 43) ∧ tail.length < 1) ↔
      (if c0 = 45 ∨ c0 = 43 then tail else c0 :: tail) = [] := by
    by_cases hsg : c0 = 45 ∨ c0 = 43
    · simp only [hsg, true_and, if_true, Nat.lt_one_iff, List.length_eq_zero]
    · simp [hsg]
  simp only [hempty]
  revert hlen
  generalize (if c0 = 45 ∨ c0 = 43 then tail else c0 :: tail) = s1
  intro hlen
  by_cases he : s1 = []
  · rw [if_pos he]
    constructor
    · intro hf
      cases hf
    · rintro ⟨⟨hne, _, _⟩, _⟩
      exact absurd he hne
  · rw [if_neg he]
    by_cases hall : ∀ c ∈ s1, isDigit c
    · obtain ⟨hloop, hlt⟩ := fast_value p s1 hlen hall
      rw [hloop]
      simp only
      have hr : inIntRange p (- ((decimalValue s1 : Nat) : Int)) ∧
          inIntRange p ((decimalValue s1 : Nat) : Int) := by
        revert hlt
        generalize decimalValue s1 = D
        intro hlt
        cases p
        · simp only [Platform.intSize, inIntRange] at hlt ⊢
          norm_num at hlt ⊢
          omega
        · simp only [Platform.intSize, inIntRange] at hlt ⊢
          norm_num at hlt ⊢
          omega
      rw [inIntRange_wrapInt p _ hr.1]
      constructor
      · intro hv
        have hn := Except.ok.inj hv
        subst hn
        refine ⟨⟨he, hall, rfl⟩, ?_⟩
        split_ifs
        · exact hr.1
        · exact hr.2
      · rintro ⟨⟨_, _, hn⟩, _⟩
        rw [hn]
    · constructor
      · intro hf
        cases hloop : atoiFastLoop p.intSize 0 s1 with
        | none =>
          rw [hloop] at hf
          cases hf
        | some m => exact absurd (atoiFastLoop_some p.intSize s1 0 m hloop) hall
      · rintro ⟨⟨_, hd, _⟩, _⟩
        exact absurd hd hall

/-- `strconv.Atoi` succeeds with `n` exactly on integer text of value `n` in the range
of `int`. -/
theorem Atoi_ok_iff (p : Platform) (s : GoString) (n : Int) :
    Atoi p s = .ok n ↔ IntegerText s n ∧ inIntRange p n := by
  by_cases h : (p.intSize = 32 ∧ (0 < s.length ∧ s.length < 10)) ∨
      (p.intSize = 64 ∧ (0 < s.length ∧ s.length < 19))
  · cases s with
    | nil =>
      exfalso
      rcases h with ⟨_, h0, _⟩ | ⟨_, h0, _⟩ <;> simp at h0
    | cons c0 tail => exact Atoi_fast p c0 tail h n
  · exact Atoi_slow p s h n

theorem IntegerText_unique (s : GoString) (n m : Int) (hn : IntegerText s n)
    (hm : IntegerText s m) : n = m := by
  cases s with
  | nil => exact absurd hn (IntegerText_nil n)
  | cons c0 tail =>
    rw [IntegerText_cons] at hn hm
    rw [hn.2.2, hm.2.2]

theorem Atoi_error_of_out_of_range (p : Platform) (s : GoString) (n : Int)
    (ht : IntegerText s n) (hr : ¬ inIntRange p n) : ∃ e, Atoi p s = .error e := by
  cases ha : Atoi p s with
  | error e => exact ⟨e, rfl⟩
  | ok v =>
    exfalso
    obtain ⟨htv, hrv⟩ := (Atoi_ok_iff p s v).1 ha
    rw [IntegerText_unique s n v ht htv] at hr
    exact hr hrv

set_option maxRecDepth 4000 in
theorem IntegerText_999 : IntegerText (str "999") 999 :=
  ⟨str "999", by decide, by decide, Or.inl ⟨rfl, by rfl⟩⟩

set_option maxRecDepth 20000 in
theorem IntegerText_two_pow_63 :
    IntegerText (str "9223372036854775808") 9223372036854775808 :=
  ⟨str "9223372036854775808", by decide, by decide, Or.inl ⟨rfl, by rfl⟩⟩

/-! ## What the mux delivers -/

theorem scenario :
    handle sampleEnv .dataID (authReq "/data/1") =
        some ⟨[("Content-Type", "application/json")], some 200, [.json (marshalData record1)]⟩ ∧
      (handle sampleEnv .dataID (authReq "/data/999")).map (fun w => w.status) = some (some 404) ∧
      (handle sampleEnv .dataID (bearerReq "/data/1")).map (fun w => w.status) = some (some 403) ∧
      (handle sampleEnv .dataID (authReq "/data/x")).map (fun w => w.status) = some (some 400) ∧
      (handle missingEnv .data (authReq "/data")).map (fun w => w.status) = some (some 500) ∧
      (handle missingEnv .dataID (authReq "/data/1")).map (fun w => w.status) = some (some 500) ∧
      handle emptyEnv .data (authReq "/data") =
        some ⟨[("Content-Type", "application/json")], some 200, [.json (.array [])]⟩ := by
  refine ⟨by rfl, by rfl, by rfl, by rfl, by rfl, by rfl, by rfl⟩

theorem scenario_through_mux :
    serve sampleEnv (authReq "/data") =
        .response (some ⟨[("Content-Type", "application/json")], some 200,
          [.json (.array [marshalData record1, marshalData record2])]⟩) ∧
      serve sampleEnv (authReq "/data/1") =
        .response (some ⟨[("Content-Type", "application/json")], some 200,
          [.json (marshalData record1)]⟩) ∧
      serve sampleEnv (authReq "/data/1.5") =
        .response (some ⟨[("Content-Type", "text/plain; charset=utf-8"),
          ("X-Content-Type-Options", "nosniff")], some 400, [.text "Invalid ID\n"]⟩) ∧
      findHandler (authReq "/data/1/2") = .notFound ∧
      findHandler (authReq "/data//1") = .redirect (str "/data/1") := by
  refine ⟨by rfl, by rfl, by rfl, by rfl, by rfl⟩

/-! ## The authorization gate -/

theorem AuthMiddleware_pass (next : Handler) (w : ResponseWriter) (r : Request)
    (h : r.Get "Authorization" = str "robel") : AuthMiddleware next w r = next w r := by
  simp [AuthMiddleware, h]

/-- C1: a request to either registered route whose Authorization header is not exactly
"robel" is answered 403 with the plain-text message "Forbidden" (http.Error ends the
message with a newline), whatever the downstream handler, the path and the store are;
a missing header reads as the empty string, and neither it, nor "Robel", nor the sample
client's bearer value is the secret. -/
theorem forbidden_without_secret (env : Env) (route : Route) (r : Request)
    (h : r.Get "Authorization" ≠ str "robel") :
    handle env route r =
        some ⟨[("Content-Type", "text/plain; charset=utf-8"),
          ("X-Content-Type-Options", "nosniff")], some 403, [.text "Forbidden\n"]⟩ ∧
      (∀ (next : Handler) (w : ResponseWriter),
        AuthMiddleware next w r = some (Error w "Forbidden" 403)) ∧
      (∀ (path : GoString) (method : String) (escaped : GoString),
        (Request.mk [] path method escaped).Get "Authorization" = []) ∧
      ([] : GoString) ≠ str "robel" ∧ str "Robel" ≠ str "robel" ∧
      str "Bearer your_generated_token" ≠ str "robel" := by
  have hgate : ∀ (next : Handler) (w : ResponseWriter),
      AuthMiddleware next w r = some (Error w "Forbidden" 403) := by
    intro next w
    simp [AuthMiddleware, h]
  refine ⟨?_, hgate, ?_, by decide, by decide, by decide⟩
  · cases route <;> simp [handle, routes, hgate, Error_fresh]
  · intro path method escaped
    rfl

theorem forbidden_without_secret_witness :
    (bearerReq "/data/1").Get "Authorization" ≠ str "robel" ∧
      handle missingEnv .dataID (bearerReq "/data/1") =
        some ⟨[("Content-Type", "text/plain; charset=utf-8"),
          ("X-Content-Type-Options", "nosniff")], some 403, [.text "Forbidden\n"]⟩ :=
  ⟨by decide, (forbidden_without_secret missingEnv .dataID (bearerReq "/data/1") (by decide)).1⟩

/-- C8: with the Authorization header exactly "robel", AuthMiddleware(next) hands the
writer and the request to next unchanged: its outcome is the outcome of next. -/
theorem auth_forwards (next : Handler) (w : ResponseWriter) (r : Request)
    (h : r.Get "Authorization" = str "robel") :
    AuthMiddleware next w r = next w r :=
  AuthMiddleware_pass next w r h

theorem auth_forwards_witness :
    (authReq "/data").Get "Authorization" = str "robel" ∧
      AuthMiddleware (handleDataRequest sampleEnv) ResponseWriter.fresh (authReq "/data") =
        handleDataRequest sampleEnv ResponseWriter.fresh (authReq "/data") :=
  ⟨by decide, auth_forwards (handleDataRequest sampleEnv) ResponseWriter.fresh (authReq "/data")
    (by decide)⟩

/-! ## The identifier -/

/-- C9: for a path that begins with "/data/", the slice `path[len("/data/"):]` is in
range and is the remainder of the path after that prefix; the slice (and with it the
handler) fails exactly for a path shorter than six bytes. -/
theorem id_extraction (path idStr : GoString) (h : path = str "/data/" ++ idStr) :
    sliceFrom path (str "/data/").length = some idStr ∧
      (∀ q : GoString, sliceFrom q (str "/data/").length = none ↔ q.length < 6) ∧
      (∀ (env : Env) (w : ResponseWriter) (r : Request),
        handleDataByIDRequest env w r = none ↔ r.Path.length < 6) := by
  have hslice : ∀ q : GoString, sliceFrom q (str "/data/").length = none ↔ q.length < 6 := by
    intro q
    simp [sliceFrom, str_data_length]
  refine ⟨by rw [h]; exact sliceFrom_append idStr, hslice, ?_⟩
  intro env w r
  rw [← hslice]
  unfold handleDataByIDRequest
  cases hs : sliceFrom r.Path (str "/data/").length with
  | none => simp
  | some s =>
    simp only [reduceCtorEq, iff_false]
    cases Atoi env.platform s with
    | error e => simp
    | ok n =>
      simp only
      split <;> simp

theorem id_extraction_witness :
    str "/data/42" = str "/data/" ++ str "42" ∧
      sliceFrom (str "/data/42") (str "/data/").length = some (str "42") :=
  ⟨by decide, (id_extraction (str "/data/42") (str "42") (by decide)).1⟩

/-! ## Get by id -/

theorem handle_dataID_auth (env : Env) (r : Request) (idStr : GoString)
    (hauth : r.Get "Authorization" = str "robel") (hp : r.Path = str "/data/" ++ idStr) :
    handle env .dataID r =
      match Atoi env.platform idStr with
      | .error _ => some (Error ResponseWriter.fresh "Invalid ID" 400)
      | .ok id =>
        match readAllJSONData env "user.json" with
        | (_, some _) => some (Error ResponseWriter.fresh "Failed to read data" 500)
        | (data, none) => some (lookupLoop ResponseWriter.fresh id data.elems) := by
  simp only [handle, routes, AuthMiddleware_pass _ _ _ hauth, handleDataByIDRequest, hp,
    sliceFrom_append]

theorem handle_data_auth (env : Env) (r : Request)
    (hauth : r.Get "Authorization" = str "robel") :
    handle env .data r =
      match readAllJSONData env "user.json" with
      | (_, some _) => some (Error ResponseWriter.fresh "Failed to read data" 500)
      | (data, none) =>
        some (Encode (ResponseWriter.fresh.Set "Content-Type" "application/json")
          (marshalSlice data)) := by
  simp only [handle, routes, AuthMiddleware_pass _ _ _ hauth, handleDataRequest]

theorem lookupLoop_miss (w : ResponseWriter) (id : Int) (l : List Data)
    (h : ∀ d ∈ l, d.ID ≠ id) : lookupLoop w id l = Error w "Data not found" 404 := by
  induction l with
  | nil => rfl
  | cons d rest ih =>
    have hd : d.ID ≠ id := h d (List.mem_cons_self d rest)
    simp only [lookupLoop, hd, if_false]
    exact ih (fun x hx => h x (List.mem_cons_of_mem d hx))

theorem lookupLoop_hit (w : ResponseWriter) (id : Int) (l : List Data)
    (h : ∃ d ∈ l, d.ID = id) :
    ∃ pre hit post, l = pre ++ hit :: post ∧ (∀ d ∈ pre, d.ID ≠ id) ∧ hit.ID = id ∧
      lookupLoop w id l = Encode (w.Set "Content-Type" "application/json") (marshalData hit) := by
  induction l with
  | nil => simp at h
  | cons d rest ih =>
    by_cases hd : d.ID = id
    · exact ⟨[], d, rest, rfl, by simp, hd, by simp [lookupLoop, hd]⟩
    · have hrest : ∃ x ∈ rest, x.ID = id := by
        obtain ⟨x, hx, hxid⟩ := h
        rcases List.mem_cons.mp hx with rfl | hx
        · exact absurd hxid hd
        · exact ⟨x, hx, hxid⟩
      obtain ⟨pre, hit, post, hl, hpre, hhit, hloop⟩ := ih hrest
      refine ⟨d :: pre, hit, post, by simp [hl], ?_, hhit, by simp [lookupLoop, hd, hloop]⟩
      intro x hx
      rcases List.mem_cons.mp hx with rfl | hx
      · exact hd
      · exact hpre x hx

/-- C2 (as the code has it): a request to /data/{id} whose identifier fails integer
parsing is answered 400 when the Authorization header is the shared secret, and 403
when the header is missing or wrong. -/
theorem invalid_id_status (env : Env) (r : Request) (idStr : GoString) (e : NumError)
    (hp : r.Path = str "/data/" ++ idStr) (he : Atoi env.platform idStr = .error e) :
    (r.Get "Authorization" = str "robel" →
        handle env .dataID r =
          some ⟨[("Content-Type", "text/plain; charset=utf-8"),
            ("X-Content-Type-Options", "nosniff")], some 400, [.text "Invalid ID\n"]⟩) ∧
      (r.Get "Authorization" ≠ str "robel" →
        handle env .dataID r =
          some ⟨[("Content-Type", "text/plain; charset=utf-8"),
            ("X-Content-Type-Options", "nosniff")], some 403, [.text "Forbidden\n"]⟩) := by
  constructor
  · intro hauth
    rw [handle_dataID_auth env r idStr hauth hp, he]
    rfl
  · intro hauth
    simp [handle, routes, AuthMiddleware, hauth, Error_fresh]

theorem invalid_id_status_witness :
    (anonReq "/data/abc").Path = str "/data/" ++ str "abc" ∧
      Atoi sampleEnv.platform (str "abc") = .error .ErrSyntax ∧
      ((anonReq "/data/abc").Get "Authorization" ≠ str "robel" →
        handle sampleEnv .dataID (anonReq "/data/abc") =
          some ⟨[("Content-Type", "text/plain; charset=utf-8"),
            ("X-Content-Type-Options", "nosniff")], some 403, [.text "Forbidden\n"]⟩) :=
  ⟨by decide, by rfl,
    (invalid_id_status sampleEnv (anonReq "/data/abc") (str "abc") .ErrSyntax (by decide)
      (by rfl)).2⟩

/-- C2 as stated fails: "abc" does not parse as an integer, and the request for
/data/abc without an Authorization header is answered 403, not 400. -/
theorem invalid_id_unauthenticated_is_403 :
    Atoi sampleEnv.platform (str "abc") = .error .ErrSyntax ∧
      (anonReq "/data/abc").Get "Authorization" ≠ str "robel" ∧
      ∃ w, handle sampleEnv .dataID (anonReq "/data/abc") = some w ∧
        w.status = some 403 ∧ w.status ≠ some 400 := by
  refine ⟨by rfl, by decide, _, rfl, rfl, by decide⟩

/-- C7: an authenticated request to /data/{id} whose identifier does not parse as an
integer is answered 400 "Invalid ID" whatever the file system and the decoder are:
the store is not consulted, and a failing store gives 400, not 500. -/
theorem invalid_id_before_store (p : Platform)
    (readFile : String → Except GoError (List Byte))
    (unmarshal : List Byte → Slice → Slice × Option GoError)
    (r : Request) (idStr : GoString) (e : NumError)
    (hauth : r.Get "Authorization" = str "robel") (hp : r.Path = str "/data/" ++ idStr)
    (he : Atoi p idStr = .error e) :
    handle ⟨p, readFile, unmarshal⟩ .dataID r =
      some ⟨[("Content-Type", "text/plain; charset=utf-8"),
        ("X-Content-Type-Options", "nosniff")], some 400, [.text "Invalid ID\n"]⟩ := by
  rw [handle_dataID_auth _ r idStr hauth hp]
  simp only [he]
  rfl

theorem invalid_id_before_store_witness :
    (authReq "/data/x").Get "Authorization" = str "robel" ∧
      (authReq "/data/x").Path = str "/data/" ++ str "x" ∧
      Atoi .bits64 (str "x") = .error .ErrSyntax ∧
      handle ⟨.bits64, missingEnv.ReadFile, missingEnv.Unmarshal⟩ .dataID (authReq "/data/x") =
        some ⟨[("Content-Type", "text/plain; charset=utf-8"),
          ("X-Content-Type-Options", "nosniff")], some 400, [.text "Invalid ID\n"]⟩ :=
  ⟨by decide, by decide, by rfl,
    invalid_id_before_store .bits64 missingEnv.ReadFile missingEnv.Unmarshal (authReq "/data/x")
      (str "x") .ErrSyntax (by decide) (by decide) (by rfl)⟩

/-- C4 (as the code has it): an authenticated request to /data/{id} whose identifier is
a decimal integer n that is the id of no record of the successfully loaded collection
(the empty and the nil collection included) is answered 404 with the plain-text message
"Data not found", nothing else written, when n lies in the range of the platform's
int; when n lies outside that range the identifier fails integer parsing and the answer
is 400 "Invalid ID". -/
theorem not_found (env : Env) (r : Request) (idStr : GoString) (n : Int) (data : Slice)
    (hauth : r.Get "Authorization" = str "robel") (hp : r.Path = str "/data/" ++ idStr)
    (htext : IntegerText idStr n)
    (hload : readAllJSONData env "user.json" = (data, none))
    (hmiss : ∀ d ∈ data.elems, d.ID ≠ n) :
    (inIntRange env.platform n →
        handle env .dataID r =
          some ⟨[("Content-Type", "text/plain; charset=utf-8"),
            ("X-Content-Type-Options", "nosniff")], some 404, [.text "Data not found\n"]⟩) ∧
      (¬ inIntRange env.platform n →
        handle env .dataID r =
          some ⟨[("Content-Type", "text/plain; charset=utf-8"),
            ("X-Content-Type-Options", "nosniff")], some 400, [.text "Invalid ID\n"]⟩) := by
  constructor
  · intro hrange
    have hn : Atoi env.platform idStr = .ok n := (Atoi_ok_iff _ _ _).2 ⟨htext, hrange⟩
    rw [handle_dataID_auth env r idStr hauth hp]
    simp only [hn, hload, lookupLoop_miss _ n _ hmiss]
    rfl
  · intro hrange
    obtain ⟨e, he⟩ := Atoi_error_of_out_of_range env.platform idStr n htext hrange
    rw [handle_dataID_auth env r idStr hauth hp, he]
    rfl

theorem not_found_witness :
    (authReq "/data/999").Get "Authorization" = str "robel" ∧
      IntegerText (str "999") 999 ∧ inIntRange sampleEnv.platform 999 ∧
      readAllJSONData sampleEnv "user.json" = (some [record1, record2], none) ∧
      handle sampleEnv .dataID (authReq "/data/999") =
        some ⟨[("Content-Type", "text/plain; charset=utf-8"),
          ("X-Content-Type-Options", "nosniff")], some 404, [.text "Data not found\n"]⟩ :=
  ⟨by decide, IntegerText_999, ⟨by decide, by decide⟩, by rfl,
    (not_found sampleEnv (authReq "/data/999") (str "999") 999 (some [record1, record2])
      (by decide) (by decide) IntegerText_999 (by rfl) (by decide)).1 ⟨by decide, by decide⟩⟩

/-- C4 as stated fails: 9223372036854775808 is a decimal integer and the id of no record
of the empty store, which loads without error, yet the authenticated request for
/data/9223372036854775808 on a 64-bit platform is answered 400, not 404: the integer
does not fit int. -/
theorem out_of_range_identifier_is_400 :
    (authReq "/data/9223372036854775808").Get "Authorization" = str "robel" ∧
      (authReq "/data/9223372036854775808").Path = str "/data/" ++ str "9223372036854775808" ∧
      IntegerText (str "9223372036854775808") 9223372036854775808 ∧
      readAllJSONData emptyEnv "user.json" = (some [], none) ∧
      (∀ d ∈ Slice.elems (some []), d.ID ≠ 9223372036854775808) ∧
      ∃ w, handle emptyEnv .dataID (authReq "/data/9223372036854775808") = some w ∧
        w.status = some 400 ∧ w.body = [.text "Invalid ID\n"] ∧ w.status ≠ some 404 := by
  refine ⟨by decide, by decide, IntegerText_two_pow_63, by rfl, ?_, _, rfl, rfl, rfl, by decide⟩
  intro d hd
  simp [Slice.elems] at hd

/-- C3: for an authenticated request to /data/{id} whose identifier is the integer n,
and a successfully loaded collection with a record of id n, the response is 200 with
Content-Type application/json, and the body is the JSON object of the first record in
file order whose id is n: its "id" is n, its other members are that record's fields. -/
theorem found_first (env : Env) (r : Request) (idStr : GoString) (n : Int) (data : Slice)
    (hauth : r.Get "Authorization" = str "robel") (hp : r.Path = str "/data/" ++ idStr)
    (hn : Atoi env.platform idStr = .ok n)
    (hload : readAllJSONData env "user.json" = (data, none))
    (hex : ∃ d ∈ data.elems, d.ID = n) :
    ∃ pre hit post, data.elems = pre ++ hit :: post ∧ (∀ d ∈ pre, d.ID ≠ n) ∧ hit.ID = n ∧
      handle env .dataID r =
        some ⟨[("Content-Type", "application/json")], some 200,
          [.json (.object [("id", .number n), ("jpg", .string hit.Image),
            ("name", .string hit.Name), ("vorname", .string hit.FirstName),
            ("adresse", .string hit.Address), ("pan_card_number", .string hit.PanCard),
            ("expiration_date", .string hit.ExpiryDate)])]⟩ := by
  obtain ⟨pre, hit, post, hl, hpre, hhit, hloop⟩ :=
    lookupLoop_hit ResponseWriter.fresh n data.elems hex
  refine ⟨pre, hit, post, hl, hpre, hhit, ?_⟩
  rw [handle_dataID_auth env r idStr hauth hp]
  simp only [hn, hload, hloop, Encode_fresh, marshalData, hhit]

theorem found_first_witness :
    Atoi duplicateEnv.platform (str "1") = .ok 1 ∧
      readAllJSONData duplicateEnv "user.json" = (some [record2, record1, record1b], none) ∧
      handle duplicateEnv .dataID (authReq "/data/1") =
        some ⟨[("Content-Type", "application/json")], some 200, [.json (marshalData record1)]⟩ ∧
      ∃ pre hit post, [record2, record1, record1b] = pre ++ hit :: post ∧
        (∀ d ∈ pre, d.ID ≠ 1) ∧ hit.ID = 1 ∧
        handle duplicateEnv .dataID (authReq "/data/1") =
          some ⟨[("Content-Type", "application/json")], some 200,
            [.json (.object [("id", .number 1), ("jpg", .string hit.Image),
              ("name", .string hit.Name), ("vorname", .string hit.FirstName),
              ("adresse", .string hit.Address), ("pan_card_number", .string hit.PanCard),
              ("expiration_date", .string hit.ExpiryDate)])]⟩ :=
  ⟨by rfl, by rfl, by rfl,
    found_first duplicateEnv (authReq "/data/1") (str "1") 1 (some [record2, record1, record1b])
      (by decide) (by decide) (by rfl) (by rfl) ⟨record1, by decide, by decide⟩⟩

/-! ## List all, and the failing store -/

/-- C5 (as the code has it): for an authenticated request to /data and a store that
loads without error, the response is 200 with Content-Type application/json and the
body is the JSON encoding of the loaded slice: when the slice is not nil (the store
with zero records included) a JSON array of exactly the loaded records in file order,
as long as the store; when the slice is nil, as for a file holding the JSON value
null, the JSON value null. -/
theorem list_all (env : Env) (r : Request) (data : Slice)
    (hauth : r.Get "Authorization" = str "robel")
    (hload : readAllJSONData env "user.json" = (data, none)) :
    handle env .data r =
        some ⟨[("Content-Type", "application/json")], some 200, [.json (marshalSlice data)]⟩ ∧
      (∀ l : List Data, data = some l →
        marshalSlice data = .array (l.map marshalData) ∧
          (l.map marshalData).length = l.length) ∧
      (data = none → marshalSlice data = .null) := by
  refine ⟨?_, ?_, ?_⟩
  · rw [handle_data_auth env r hauth]
    simp only [hload, Encode_fresh]
  · intro l hl
    subst hl
    exact ⟨rfl, List.length_map l marshalData⟩
  · intro hnil
    subst hnil
    rfl

theorem list_all_witness :
    (authReq "/data").Get "Authorization" = str "robel" ∧
      readAllJSONData sampleEnv "user.json" = (some [record1, record2], none) ∧
      handle sampleEnv .data (authReq "/data") =
        some ⟨[("Content-Type", "application/json")], some 200,
          [.json (marshalSlice (some [record1, record2]))]⟩ :=
  ⟨by decide, by rfl,
    (list_all sampleEnv (authReq "/data") (some [record1, record2]) (by decide) (by rfl)).1⟩

/-- C5 as stated fails for the store whose file holds the JSON value null: the load
succeeds with a nil slice, and the body of the 200 response is the JSON value null,
which is not a JSON array. -/
theorem null_store_body_is_not_an_array :
    nullEnv.ReadFile "user.json" = .ok (str "null") ∧
      readAllJSONData nullEnv "user.json" = (none, none) ∧
      ∃ w, handle nullEnv .data (authReq "/data") = some w ∧ w.status = some 200 ∧
        w.body = [.json .null] ∧ ∀ elems : List JSON, w.body ≠ [.json (.array elems)] := by
  refine ⟨by rfl, by rfl, _, rfl, rfl, rfl, ?_⟩
  intro elems h
  have h0 : [Chunk.json JSON.null] = [Chunk.json (JSON.array elems)] := h
  simp at h0

/-- C6: when the loader reports an error (the file cannot be read, or its content
fails to decode) an authenticated request to /data, and an authenticated request to
/data/{id} with an identifier that parses as an integer, are answered 500 with the
plain-text message "Failed to read data" and nothing else in the body, also when the
loader hands back a decoded list together with the error. -/
theorem load_failure (env : Env) (r : Request) (data : Slice) (err : GoError)
    (hauth : r.Get "Authorization" = str "robel")
    (hload : readAllJSONData env "user.json" = (data, some err)) :
    handle env .data r =
        some ⟨[("Content-Type", "text/plain; charset=utf-8"),
          ("X-Content-Type-Options", "nosniff")], some 500, [.text "Failed to read data\n"]⟩ ∧
      (∀ (idStr : GoString) (n : Int), r.Path = str "/data/" ++ idStr →
        Atoi env.platform idStr = .ok n →
        handle env .dataID r =
          some ⟨[("Content-Type", "text/plain; charset=utf-8"),
            ("X-Content-Type-Options", "nosniff")], some 500,
            [.text "Failed to read data\n"]⟩) ∧
      (∀ (world : Env) (e : GoError), world.ReadFile "user.json" = .error e →
        readAllJSONData world "user.json" = (none, some e)) ∧
      (∀ (world : Env) (bytes : List Byte) (d : Slice) (e : GoError),
        world.ReadFile "user.json" = .ok bytes → world.Unmarshal bytes none = (d, some e) →
        readAllJSONData world "user.json" = (d, some e)) := by
  refine ⟨?_, ?_, ?_, ?_⟩
  · rw [handle_data_auth env r hauth]
    simp only [hload]
    rfl
  · intro idStr n hp hn
    rw [handle_dataID_auth env r idStr hauth hp]
    simp only [hn, hload]
    rfl
  · intro world e hread
    simp [readAllJSONData, hread]
  · intro world bytes d e hread hdec
    simp [readAllJSONData, hread, hdec]

theorem load_failure_witness :
    (authReq "/data/1").Get "Authorization" = str "robel" ∧
      readAllJSONData brokenEnv "user.json" =
        (some [⟨1, "", "", "", "", "", ""⟩, ⟨0, "", "", "", "", "", ""⟩],
          some ⟨"json: cannot unmarshal string into Go struct field Data.id of type int"⟩) ∧
      Atoi brokenEnv.platform (str "1") = .ok 1 ∧
      handle brokenEnv .dataID (authReq "/data/1") =
        some ⟨[("Content-Type", "text/plain; charset=utf-8"),
          ("X-Content-Type-Options", "nosniff")], some 500, [.text "Failed to read data\n"]⟩ :=
  ⟨by decide, by rfl, by rfl,
    (load_failure brokenEnv (authReq "/data/1") _ _ (by decide) (by rfl)).2.1 (str "1") 1
      (by decide) (by rfl)⟩

/-! ## The identifier is read as an integer -/

end RestApi
